import Mathlib

/-!
Verification of the arena-god-tracker profile/progress engine.

This file gives a shallow embedding of the repository's core logic and
proves the specified properties about it:

* the presentation engine (`ImageGrid.sortedImages` in
  src/app/components/tabs.tsx, `filteredImages` in
  src/app/components/profile-manager.tsx),
* the synchronization controller (`loadProfiles`, `handleUpdateProfile`,
  `handleDeleteProfile`, `toggleChampionWin` in
  src/app/components/profile-manager.tsx),
* the remote-store access layer (`getProfiles`, `createProfile`,
  `updateProfile`, `deleteProfile`, `subscribeToProfiles` in
  src/app/lib/database.ts),
* the local-storage fallback module (src/app/lib/storage.ts).

JavaScript arrays are embedded as `List`, nullable results as `Option`,
and the stable ECMAScript `Array.prototype.sort` as `List.insertionSort`
(a stable sort). `String.prototype.localeCompare` is embedded as code-point
lexicographic comparison (the names being compared are plain ASCII
champion names).
-/

/-- Modelled from the spec: the catalog entry type `ImageTile` is declared in
src/app/lib/images.ts, which is not part of the available sources; §6 of the
spec describes catalog entries as read-only `{name, imageReference}` pairs,
which matches every use of `ImageTile` in tabs.tsx and profile-manager.tsx. -/
structure ImageTile where
  name : String
  src : String
deriving DecidableEq

/-- `type SortMode = "completion" | "alphabetical"` (tabs.tsx line 33). -/
inductive SortMode
  | completion
  | alphabetical
deriving DecidableEq

/-- `type SortDirection = "asc" | "desc"` (tabs.tsx line 34). -/
inductive SortDirection
  | asc
  | desc
deriving DecidableEq

/-- Code-point comparison of two character sequences, returning a negative,
zero, or positive `Int` in the manner of `String.prototype.localeCompare`
applied to the ASCII champion names used by the app. -/
def cmpChars : List Char → List Char → Int
  | [], [] => 0
  | [], _ :: _ => -1
  | _ :: _, [] => 1
  | a :: as, b :: bs =>
    if a.toNat < b.toNat then -1
    else if b.toNat < a.toNat then 1
    else cmpChars as bs

/-- Embedding of `a.localeCompare(b)` for the strings this app compares. -/
def localeCompare (a b : String) : Int :=
  cmpChars a.data b.data

/-- The comparator passed to `[...displayImages].sort` in
`ImageGrid.sortedImages` (tabs.tsx lines 137-158), with `activeChampions`
the selected profile's completed list. -/
def sortCmp (sortMode : SortMode) (sortDirection : SortDirection)
    (activeChampions : List String) (a b : ImageTile) : Int :=
  match sortMode with
  | .completion =>
    let aCompleted := activeChampions.contains a.name
    let bCompleted := activeChampions.contains b.name
    if aCompleted ≠ bCompleted then
      if sortDirection = .asc then
        if aCompleted then -1 else 1
      else
        if aCompleted then 1 else -1
    else
      localeCompare a.name b.name
  | .alphabetical =>
    if sortDirection = .asc then localeCompare a.name b.name
    else localeCompare b.name a.name

/-- `ImageGrid.sortedImages` (tabs.tsx lines 137-158): a stable sort of
`displayImages` by `sortCmp`.  ECMAScript `Array.prototype.sort` is
required to be stable, which `List.insertionSort` is; `[...displayImages]`
copies the array first, so the input list is not mutated. -/
def sortedImages (sortMode : SortMode) (sortDirection : SortDirection)
    (activeChampions : List String) (displayImages : List ImageTile) :
    List ImageTile :=
  List.insertionSort
    (fun a b => sortCmp sortMode sortDirection activeChampions a b ≤ 0)
    displayImages

/-- Embedding of `String.prototype.toLowerCase` at the character level
(`s.toLowerCase()` on the ASCII names used here lowercases each character). -/
def jsToLower (s : String) : List Char :=
  s.data.map Char.toLower

/-- Embedding of `hay.includes(needle)`: some suffix of `hay` starts with
`needle`; the empty needle is contained in every string. -/
def jsIncludes (hay needle : List Char) : Bool :=
  hay.tails.any (fun t => needle.isPrefixOf t)

/-- `filteredImages` (profile-manager.tsx lines 204-206): case-insensitive
substring filter of the catalog by the search query. -/
def filteredImages (images : List ImageTile) (searchQuery : String) :
    List ImageTile :=
  images.filter (fun image =>
    jsIncludes (jsToLower image.name) (jsToLower searchQuery))

/-- The composite presentation pipeline of §4.2: `ProfileManager` filters the
catalog by the search query and `ImageGrid` sorts the filtered list
(profile-manager.tsx lines 379-386 pass `filteredImages` as
`displayImages`). -/
def view (images : List ImageTile) (activeChampions : List String)
    (searchQuery : String) (sortMode : SortMode)
    (sortDirection : SortDirection) : List ImageTile :=
  sortedImages sortMode sortDirection activeChampions
    (filteredImages images searchQuery)

theorem cmpChars_nil_le (c : List Char) : cmpChars [] c ≤ 0 := by
  cases c <;> simp [cmpChars]

theorem cmpChars_swap : ∀ a b : List Char, cmpChars a b = -(cmpChars b a)
  | [], [] => by simp [cmpChars]
  | [], _ :: _ => by simp [cmpChars]
  | _ :: _, [] => by simp [cmpChars]
  | x :: as, y :: bs => by
    have ih := cmpChars_swap as bs
    simp only [cmpChars]
    split_ifs <;> omega

theorem cmpChars_trans :
    ∀ a b c : List Char,
      cmpChars a b ≤ 0 → cmpChars b c ≤ 0 → cmpChars a c ≤ 0
  | [], _, c, _, _ => cmpChars_nil_le c
  | _ :: _, [], _, h1, _ => by simp [cmpChars] at h1
  | _ :: _, _ :: _, [], _, h2 => by simp [cmpChars] at h2
  | x :: as, y :: bs, z :: cs, h1, h2 => by
    have ih := cmpChars_trans as bs cs
    simp only [cmpChars] at h1 h2 ⊢
    split_ifs at h1 h2 ⊢ <;> omega

theorem cmpChars_le_total (a b : List Char) :
    cmpChars a b ≤ 0 ∨ cmpChars b a ≤ 0 := by
  rcases le_or_lt (cmpChars a b) 0 with h | h
  · exact Or.inl h
  · right
    rw [cmpChars_swap b a]
    omega

/-- Group rank induced by the completion comparator: the group the direction
puts first gets rank 0. -/
def grpRank (sortDirection : SortDirection) (activeChampions : List String)
    (a : ImageTile) : Nat :=
  if activeChampions.contains a.name then
    (if sortDirection = .asc then 0 else 1)
  else
    (if sortDirection = .asc then 1 else 0)

theorem sortCmp_completion_le_iff (dir : SortDirection)
    (comp : List String) (a b : ImageTile) :
    sortCmp .completion dir comp a b ≤ 0 ↔
      (grpRank dir comp a < grpRank dir comp b ∨
        (grpRank dir comp a = grpRank dir comp b ∧
          localeCompare a.name b.name ≤ 0)) := by
  by_cases hac : a.name ∈ comp <;>
    by_cases hbc : b.name ∈ comp <;>
      cases dir <;>
        simp [sortCmp, grpRank, hac, hbc]

theorem sortCmp_le_trans (mode : SortMode) (dir : SortDirection)
    (comp : List String) (a b c : ImageTile)
    (h1 : sortCmp mode dir comp a b ≤ 0)
    (h2 : sortCmp mode dir comp b c ≤ 0) :
    sortCmp mode dir comp a c ≤ 0 := by
  cases mode with
  | completion =>
    rw [sortCmp_completion_le_iff] at h1 h2 ⊢
    rcases h1 with h1 | ⟨h1, h1'⟩ <;> rcases h2 with h2 | ⟨h2, h2'⟩
    · exact Or.inl (h1.trans h2)
    · exact Or.inl (h2 ▸ h1)
    · exact Or.inl (h1 ▸ h2)
    · exact Or.inr ⟨h1.trans h2, cmpChars_trans _ _ _ h1' h2'⟩
  | alphabetical =>
    cases dir <;> simp [sortCmp] at h1 h2 ⊢
    · exact cmpChars_trans _ _ _ h1 h2
    · exact cmpChars_trans _ _ _ h2 h1

theorem sortCmp_le_total (mode : SortMode) (dir : SortDirection)
    (comp : List String) (a b : ImageTile) :
    sortCmp mode dir comp a b ≤ 0 ∨ sortCmp mode dir comp b a ≤ 0 := by
  cases mode with
  | completion =>
    rw [sortCmp_completion_le_iff, sortCmp_completion_le_iff]
    rcases Nat.lt_trichotomy (grpRank dir comp a) (grpRank dir comp b) with
      h | h | h
    · exact Or.inl (Or.inl h)
    · rcases cmpChars_le_total a.name.data b.name.data with h' | h'
      · exact Or.inl (Or.inr ⟨h, h'⟩)
      · exact Or.inr (Or.inr ⟨h.symm, h'⟩)
    · exact Or.inr (Or.inl h)
  | alphabetical =>
    cases dir <;> simp [sortCmp, localeCompare]
    · exact cmpChars_le_total a.name.data b.name.data
    · exact cmpChars_le_total b.name.data a.name.data

theorem sortedImages_perm (mode : SortMode) (dir : SortDirection)
    (comp : List String) (images : List ImageTile) :
    (sortedImages mode dir comp images).Perm images :=
  List.perm_insertionSort _ images

theorem sortedImages_sorted (mode : SortMode) (dir : SortDirection)
    (comp : List String) (images : List ImageTile) :
    (sortedImages mode dir comp images).Pairwise
      (fun a b => sortCmp mode dir comp a b ≤ 0) := by
  letI : IsTotal ImageTile (fun a b => sortCmp mode dir comp a b ≤ 0) :=
    ⟨fun a b => sortCmp_le_total mode dir comp a b⟩
  letI : IsTrans ImageTile (fun a b => sortCmp mode dir comp a b ≤ 0) :=
    ⟨fun a b c => sortCmp_le_trans mode dir comp a b c⟩
  exact List.sorted_insertionSort _ images

/-- C1: the completion-mode view partitions items into completed and
not-completed by membership in the completed list, orders the two partitions
by the sort direction (ascending puts completed first, descending puts
not-completed first), and orders each partition lexicographically ascending
by name regardless of direction; and on Scenario A (items Ahri, Zed, Lux;
completed {Zed}; ascending) the output order is [Zed, Ahri, Lux]. -/
theorem C1_completion_sort (dir : SortDirection) (completed : List String)
    (images : List ImageTile) :
    (sortedImages .completion dir completed images).Perm images
    ∧ (sortedImages .completion dir completed images).Pairwise
        (fun a b =>
          (completed.contains a.name = completed.contains b.name →
            localeCompare a.name b.name ≤ 0)
          ∧ (completed.contains a.name ≠ completed.contains b.name →
              (dir = .asc → completed.contains a.name = true)
              ∧ (dir = .desc → completed.contains a.name = false)))
    ∧ sortedImages .completion .asc ["Zed"]
        [⟨"Ahri", "/Ahri.png"⟩, ⟨"Zed", "/Zed.png"⟩, ⟨"Lux", "/Lux.png"⟩]
      = [⟨"Zed", "/Zed.png"⟩, ⟨"Ahri", "/Ahri.png"⟩, ⟨"Lux", "/Lux.png"⟩] := by
  refine ⟨sortedImages_perm _ _ _ _, ?_, by decide⟩
  refine (sortedImages_sorted .completion dir completed images).imp ?_
  intro a b hab
  rw [sortCmp_completion_le_iff] at hab
  by_cases hac : a.name ∈ completed <;>
    by_cases hbc : b.name ∈ completed <;>
      cases dir <;>
        simp [grpRank, hac, hbc] at hab ⊢ <;>
          exact hab

/-- C8: for all items, search text, sort mode and sort direction, the view's
output is a permutation of the items whose name contains the search text as
a case-insensitive substring, and the empty search text matches every
item. -/
theorem C8_view_permutation (images : List ImageTile)
    (completed : List String) (q : String) (mode : SortMode)
    (dir : SortDirection) :
    (view images completed q mode dir).Perm
      (images.filter (fun image =>
        jsIncludes (jsToLower image.name) (jsToLower q)))
    ∧ filteredImages images "" = images := by
  constructor
  · exact List.perm_insertionSort _ _
  · have hempty : ∀ hay : List Char, jsIncludes hay (jsToLower "") = true := by
      intro hay
      cases hay <;> simp [jsIncludes, jsToLower, List.isPrefixOf]
    exact List.filter_eq_self.mpr (fun a _ => hempty (jsToLower a.name))

/-- The `Profile` row type (src/app/types.ts): the completed-set is the
`firstplacechampions` string array; timestamps are embedded as naturals. -/
structure Profile where
  id : String
  name : String
  firstplacechampions : List String
  created_at : Nat
  updated_at : Nat
deriving DecidableEq

/-- State of the hosted `profiles` table together with the transport: when
`failed` is set every request errors (the supabase client reports an
`error` and the access layer takes its error branch).  `nextId` generates
fresh primary keys, `now` is the database clock used for the timestamp
columns, and `log` records every request issued, so that "no remote call
was made" is expressible as `log` being unchanged. -/
structure Remote where
  table : List Profile
  failed : Bool
  nextId : Nat
  now : Nat
  log : List String
deriving DecidableEq

namespace Db

/-- `testConnection` (database.ts lines 5-23): a probe select; `true` exactly
when the remote store answers. -/
def testConnection (r : Remote) : Bool × Remote :=
  (!r.failed, { r with log := r.log ++ ["select count"] })

/-- `getProfiles` (database.ts lines 26-38): select all rows ordered by
`created_at` ascending; on error, log and return the empty list. -/
def getProfiles (r : Remote) : List Profile × Remote :=
  let r1 := { r with log := r.log ++ ["select profiles"] }
  if r.failed then ([], r1)
  else
    (List.insertionSort (fun p q => p.created_at ≤ q.created_at) r.table, r1)

/-- `createProfile` (database.ts lines 40-62): insert a row with an empty
completed list; on error return `none`. -/
def createProfile (r : Remote) (name : String) : Option Profile × Remote :=
  let r1 := { r with log := r.log ++ ["insert profile"] }
  if r.failed then (none, r1)
  else
    let p : Profile :=
      { id := toString r.nextId, name := name, firstplacechampions := [],
        created_at := r.now, updated_at := r.now }
    (some p,
      { r1 with table := r.table ++ [p], nextId := r.nextId + 1,
                now := r.now + 1 })

/-- `updateProfile` (database.ts lines 64-82): update `name`,
`firstplacechampions` and `updated_at` of the row whose `id` matches, and
return the updated row; `.single()` errors (so the function returns `none`)
when no row matches, and on any transport error. -/
def updateProfile (r : Remote) (profile : Profile) : Option Profile × Remote :=
  let r1 := { r with log := r.log ++ ["update profile"] }
  if r.failed then (none, r1)
  else if r.table.any (fun q => q.id = profile.id) then
    let newTable := r.table.map (fun q =>
      if q.id = profile.id then
        { q with name := profile.name,
                 firstplacechampions := profile.firstplacechampions,
                 updated_at := r.now }
      else q)
    (newTable.find? (fun q => q.id = profile.id),
      { r1 with table := newTable, now := r.now + 1 })
  else (none, r1)

/-- `deleteProfile` (database.ts lines 84-96): delete the rows whose `id`
matches; succeeds (returns `true`) whenever the transport works, whether or
not a row matched. -/
def deleteProfile (r : Remote) (id : String) : Bool × Remote :=
  let r1 := { r with log := r.log ++ ["delete profile"] }
  if r.failed then (false, r1)
  else (true, { r1 with table := r.table.filter (fun p => p.id ≠ id) })

end Db

/-- The local key-value blob store (src/app/lib/storage.ts): `localStorage`
holds at most one serialized profile collection under the fixed key
`arena-god-profiles`; the JSON round-trip is the identity on collections. -/
structure LocalStore where
  profilesBlob : Option (List Profile)
deriving DecidableEq

namespace Storage

/-- `getProfiles` (storage.ts lines 9-13): parse the stored blob, or return
the empty collection when nothing is stored. -/
def getProfiles (ls : LocalStore) : List Profile :=
  ls.profilesBlob.getD []

/-- `setProfiles` (storage.ts lines 15-18): overwrite the stored blob. -/
def setProfiles (_ls : LocalStore) (profiles : List Profile) : LocalStore :=
  { profilesBlob := some profiles }

/-- The list transformation inside `updateProfile` (storage.ts lines 25-34):
`findIndex` on the id, replace in place when found, push otherwise. -/
def updateProfileList (profiles : List Profile) (profile : Profile) :
    List Profile :=
  match profiles.findIdx? (fun p => p.id = profile.id) with
  | some index => profiles.set index profile
  | none => profiles ++ [profile]

/-- `updateProfile` (storage.ts lines 25-34): upsert into the stored blob. -/
def updateProfile (ls : LocalStore) (profile : Profile) : LocalStore :=
  setProfiles ls (updateProfileList (getProfiles ls) profile)

end Storage

/-- The `ProfileManager` component state that the claims are about
(profile-manager.tsx lines 21-29), together with the remote store it talks
to: `profiles`, `selectedProfile`, `loading` and `connectionStatus` mirror
the useState hooks. -/
structure ManagerState where
  profiles : List Profile
  selectedProfile : Option Profile
  loading : Bool
  connectionStatus : String
  remote : Remote
deriving DecidableEq

/-- `loadProfiles` (profile-manager.tsx lines 69-100): fetch the collection;
when it comes back empty, create the two default profiles "Me" and
"My Friend" (dropping failed creations like `.filter(Boolean)` does) and
select the first; otherwise install the fetched collection and select its
first element.  `setLoading(false)` runs in the `finally` block. -/
def loadProfiles (s : ManagerState) : ManagerState :=
  let (storedProfiles, r1) := Db.getProfiles s.remote
  if storedProfiles.length = 0 then
    let (p1, r2) := Db.createProfile r1 "Me"
    let (p2, r3) := Db.createProfile r2 "My Friend"
    let defaultProfiles := [p1, p2].filterMap id
    { s with profiles := defaultProfiles,
             selectedProfile := defaultProfiles.head?,
             loading := false,
             remote := r3 }
  else
    { s with profiles := storedProfiles,
             selectedProfile := storedProfiles.head?,
             loading := false,
             remote := r1 }

/-- The connection branch of the mount effect (profile-manager.tsx lines
31-42): test the connection; on success set status "Connected" and load;
on failure set status "Connection failed" and stop loading.  The local
store is passed through untouched: profile-manager.tsx never imports
src/app/lib/storage.ts. -/
def initFlow (r : Remote) (ls : LocalStore) : ManagerState × LocalStore :=
  let s0 : ManagerState :=
    { profiles := [], selectedProfile := none, loading := true,
      connectionStatus := "Testing...", remote := r }
  let (isConnected, r1) := Db.testConnection r
  if isConnected then
    (loadProfiles { s0 with connectionStatus := "Connected", remote := r1 },
      ls)
  else
    ({ s0 with connectionStatus := "Connection failed", loading := false,
               remote := r1 },
      ls)

/-- The completed-set transformation inside `toggleChampionWin`
(profile-manager.tsx lines 188-195): `indexOf` followed by `splice` removes
the first occurrence of the champion when present, `push` appends it
otherwise. -/
def toggleList (firstplacechampions : List String) (champion : String) :
    List String :=
  if champion ∈ firstplacechampions then
    firstplacechampions.erase champion
  else
    firstplacechampions ++ [champion]

/-- C2: `load()` fetches the full profile collection; if it is empty it
creates exactly the two default profiles "Me" and "My Friend" and returns
them; if non-empty it returns the fetched collection ordered by creation
time ascending; and when the remote store errors it returns an empty
collection — the connectivity-failed state being surfaced by the
connection-test branch — rather than throwing (the embedding is a total
function). -/
theorem C2_load (s : ManagerState) :
    (s.remote.failed = true →
      (loadProfiles s).profiles = []
      ∧ (loadProfiles s).selectedProfile = none)
    ∧ (s.remote.failed = false → s.remote.table = [] →
        (loadProfiles s).profiles.map Profile.name = ["Me", "My Friend"])
    ∧ (s.remote.failed = false → s.remote.table ≠ [] →
        (loadProfiles s).profiles.Perm s.remote.table
        ∧ (loadProfiles s).profiles.Pairwise
            (fun p q => p.created_at ≤ q.created_at))
    ∧ (∀ ls : LocalStore, s.remote.failed = true →
        (initFlow s.remote ls).1.connectionStatus = "Connection failed"
        ∧ (initFlow s.remote ls).1.profiles = []) := by
  refine ⟨?_, ?_, ?_, ?_⟩
  · intro h
    simp [loadProfiles, Db.getProfiles, Db.createProfile, h]
  · intro hf ht
    simp [loadProfiles, Db.getProfiles, Db.createProfile, hf, ht]
  · intro hf hne
    have hlen :
        (List.insertionSort
            (fun p q : Profile => p.created_at ≤ q.created_at)
            s.remote.table).length = s.remote.table.length :=
      (List.perm_insertionSort _ _).length_eq
    have hne0 :
        ¬ (List.insertionSort
            (fun p q : Profile => p.created_at ≤ q.created_at)
            s.remote.table).length = 0 := by
      rw [hlen]
      exact fun h0 => hne (List.length_eq_zero.1 h0)
    have hout : (loadProfiles s).profiles =
        List.insertionSort (fun p q : Profile => p.created_at ≤ q.created_at)
          s.remote.table := by
      simp [loadProfiles, Db.getProfiles, hf, hne0, hne]
    rw [hout]
    refine ⟨List.perm_insertionSort _ _, ?_⟩
    letI : IsTotal Profile (fun p q : Profile => p.created_at ≤ q.created_at) :=
      ⟨fun p q => Nat.le_total p.created_at q.created_at⟩
    letI : IsTrans Profile (fun p q : Profile => p.created_at ≤ q.created_at) :=
      ⟨fun p q w hpq hqw => Nat.le_trans hpq hqw⟩
    exact List.sorted_insertionSort _ _
  · intro ls h
    simp [initFlow, Db.testConnection, h]

/-- C2 witness: concrete instances of the three branches of `C2_load`. -/
theorem C2_load_witness :
    (loadProfiles
        { profiles := [], selectedProfile := none, loading := true,
          connectionStatus := "Connected",
          remote := { table := [], failed := true, nextId := 0, now := 0,
                      log := [] } }).profiles = []
    ∧ (loadProfiles
        { profiles := [], selectedProfile := none, loading := true,
          connectionStatus := "Connected",
          remote := { table := [], failed := false, nextId := 0, now := 0,
                      log := [] } }).profiles.map Profile.name
      = ["Me", "My Friend"] := by
  refine ⟨(C2_load _).1 rfl |>.1, (C2_load _).2.1 rfl rfl⟩

/-- C3: `toggleCompletion` removes the item key when present and appends it
otherwise, so toggling the same key twice restores the original
completed-set up to set equality.  The completed-set is duplicate-free by
the data-model invariant of §3, captured by the `Nodup` hypothesis. -/
theorem C3_toggle_involution (l : List String) (c : String) (h : l.Nodup) :
    ∀ x : String, x ∈ toggleList (toggleList l c) c ↔ x ∈ l := by
  intro x
  by_cases hc : c ∈ l
  · have h1 : toggleList l c = l.erase c := if_pos hc
    have h2 : c ∉ l.erase c := by
      intro hmem
      exact (((List.Nodup.mem_erase_iff h).1 hmem).1) rfl
    have h3 : toggleList (l.erase c) c = l.erase c ++ [c] := if_neg h2
    rw [h1, h3]
    constructor
    · intro hx
      rcases List.mem_append.1 hx with hx | hx
      · exact ((List.Nodup.mem_erase_iff h).1 hx).2
      · rw [List.mem_singleton.1 hx]
        exact hc
    · intro hx
      by_cases hxc : x = c
      · exact List.mem_append.2 (Or.inr (by rw [hxc]; exact List.mem_singleton.2 rfl))
      · exact List.mem_append.2
          (Or.inl ((List.Nodup.mem_erase_iff h).2 ⟨hxc, hx⟩))
  · have h1 : toggleList l c = l ++ [c] := if_neg hc
    have h2 : c ∈ l ++ [c] := List.mem_append.2 (Or.inr (List.mem_singleton.2 rfl))
    have h3 : toggleList (l ++ [c]) c = (l ++ [c]).erase c := if_pos h2
    have h4 : (l ++ [c]).erase c = l := by
      rw [List.erase_append_right _ hc, List.erase_cons_head, List.append_nil]
    rw [h1, h3, h4]

/-- C3 witness: toggling Zed twice on the duplicate-free set {Ahri}. -/
theorem C3_toggle_involution_witness :
    (["Ahri"] : List String).Nodup
    ∧ ("Ahri" ∈ toggleList (toggleList ["Ahri"] "Zed") "Zed" ↔
        "Ahri" ∈ (["Ahri"] : List String)) :=
  ⟨by decide, C3_toggle_involution ["Ahri"] "Zed" (by decide) "Ahri"⟩

/-- An unreachable remote store: every request errors. -/
def downRemote : Remote :=
  { table := [], failed := true, nextId := 0, now := 0, log := [] }

/-- A local store whose blob already holds one profile. -/
def seededLocalStore : LocalStore :=
  { profilesBlob := some
      [{ id := "a1", name := "Alice", firstplacechampions := [],
         created_at := 0, updated_at := 0 }] }

/-- C9 is false on the code: with the remote store unavailable and the local
key-value store holding a profile collection, the connection-test branch
does not load from the local store — the manager's collection stays empty
and differs from the stored one — and the local store is left exactly as it
was, so nothing is persisted to it either.  profile-manager.tsx never
imports src/app/lib/storage.ts. -/
theorem C9_counterexample :
    (Db.testConnection downRemote).1 = false
    ∧ (initFlow downRemote seededLocalStore).1.profiles
        ≠ Storage.getProfiles seededLocalStore
    ∧ (initFlow downRemote seededLocalStore).2 = seededLocalStore := by
  decide

/-- C9 amended: when the initial connection test fails the system does not
fall back to the local key-value store; it surfaces the terminal
connectivity-failed state with an empty collection, leaves the local store
unchanged, and its outcome is independent of the local store's contents.
(The storage.ts module with its fixed string keys and single JSON blob
exists but is unused by the profile manager.) -/
theorem C9_amended (r : Remote) (ls ls2 : LocalStore)
    (h : r.failed = true) :
    (initFlow r ls).1.connectionStatus = "Connection failed"
    ∧ (initFlow r ls).1.profiles = []
    ∧ (initFlow r ls).2 = ls
    ∧ (initFlow r ls).1 = (initFlow r ls2).1 := by
  simp [initFlow, Db.testConnection, h]

/-- C9 witness: `C9_amended` at the concrete unavailable remote. -/
theorem C9_amended_witness :
    (initFlow downRemote seededLocalStore).1.connectionStatus
      = "Connection failed"
    ∧ (initFlow downRemote seededLocalStore).1.profiles = []
    ∧ (initFlow downRemote seededLocalStore).2 = seededLocalStore
    ∧ (initFlow downRemote seededLocalStore).1
      = (initFlow downRemote { profilesBlob := none }).1 :=
  C9_amended downRemote seededLocalStore { profilesBlob := none } rfl

theorem updateProfileList_cons (q : Profile) (rest : List Profile)
    (p : Profile) :
    Storage.updateProfileList (q :: rest) p =
      if q.id = p.id then p :: rest
      else q :: Storage.updateProfileList rest p := by
  simp only [Storage.updateProfileList, List.findIdx?_cons]
  by_cases h : q.id = p.id
  · simp [h]
  · simp only [h, decide_False, if_false, if_neg]
    rw [List.findIdx?_succ]
    cases hfi : rest.findIdx? (fun x => x.id = p.id) with
    | none => simp [hfi]
    | some i => simp [hfi]

theorem updateProfileList_filter_ne (profiles : List Profile) (p : Profile) :
    (Storage.updateProfileList profiles p).filter (fun q => q.id ≠ p.id)
      = profiles.filter (fun q => q.id ≠ p.id) := by
  induction profiles with
  | nil => simp [Storage.updateProfileList]
  | cons q rest ih =>
    rw [updateProfileList_cons]
    by_cases h : q.id = p.id
    · simp [h]
    · rw [if_neg h, List.filter_cons_of_pos (by simp [h]),
        List.filter_cons_of_pos (by simp [h]), ih]

theorem mem_updateProfileList (profiles : List Profile) (p : Profile) :
    p ∈ Storage.updateProfileList profiles p := by
  induction profiles with
  | nil => simp [Storage.updateProfileList]
  | cons q rest ih =>
    rw [updateProfileList_cons]
    by_cases h : q.id = p.id
    · simp [h]
    · simp only [h, if_neg, if_false]
      exact List.mem_cons_of_mem q ih

theorem updateProfileList_length (profiles : List Profile) (p : Profile) :
    (Storage.updateProfileList profiles p).length =
      if profiles.any (fun q => q.id = p.id) then profiles.length
      else profiles.length + 1 := by
  induction profiles with
  | nil => simp [Storage.updateProfileList]
  | cons q rest ih =>
    rw [updateProfileList_cons]
    by_cases h : q.id = p.id
    · simp [h]
    · rw [if_neg h]
      have hq : (decide (q.id = p.id)) = false := by simp [h]
      simp only [List.length_cons, List.any_cons, hq, Bool.false_or, ih]
      by_cases hr : rest.any (fun q => decide (q.id = p.id)) = true
      · rw [if_pos hr, if_pos hr]
      · rw [if_neg hr, if_neg hr]

/-- C10: the local-storage `updateProfile` is an upsert: when a stored
profile with the same id exists, the first such profile is replaced in
place (same position, same length); otherwise the profile is appended; in
both cases every stored profile with a different id is unchanged and their
relative order is preserved (the filter to other ids is untouched). -/
theorem C10_storage_upsert (profiles : List Profile) (p : Profile) :
    ((Storage.updateProfileList profiles p).filter (fun q => q.id ≠ p.id)
        = profiles.filter (fun q => q.id ≠ p.id))
    ∧ p ∈ Storage.updateProfileList profiles p
    ∧ ((Storage.updateProfileList profiles p).length =
        if profiles.any (fun q => q.id = p.id) then profiles.length
        else profiles.length + 1)
    ∧ (∀ i : Nat, profiles.findIdx? (fun q => q.id = p.id) = some i →
        Storage.updateProfileList profiles p = profiles.set i p)
    ∧ (profiles.findIdx? (fun q => q.id = p.id) = none →
        Storage.updateProfileList profiles p = profiles ++ [p]) := by
  refine ⟨updateProfileList_filter_ne profiles p,
    mem_updateProfileList profiles p,
    updateProfileList_length profiles p, ?_, ?_⟩
  · intro i hi
    simp [Storage.updateProfileList, hi]
  · intro hi
    simp [Storage.updateProfileList, hi]

/-- C10 witness: upsert into a collection that already holds the id. -/
theorem C10_storage_upsert_witness :
    Storage.updateProfileList
        [{ id := "a1", name := "Alice", firstplacechampions := [],
           created_at := 0, updated_at := 0 }]
        { id := "a1", name := "Alicia", firstplacechampions := ["Zed"],
          created_at := 0, updated_at := 1 }
      = [{ id := "a1", name := "Alicia", firstplacechampions := ["Zed"],
           created_at := 0, updated_at := 1 }] :=
  (C10_storage_upsert _ _).2.2.2.1 0 (by decide)

/-- A profile object as React holds it: JavaScript objects store a
*reference* to their `firstplacechampions` array, so the array contents
live in a heap of cells and the object stores a cell index.
`{ ...selectedProfile }` copies the fields — including the array
reference — without copying the array itself. -/
structure ProfileRef where
  id : String
  name : String
  championsRef : Nat
  created_at : Nat
  updated_at : Nat
deriving DecidableEq

/-- The slice of `ProfileManager` state exercised by the toggle path, with
champion arrays held in `heap`. -/
structure Session where
  heap : List (List String)
  selectedProfile : ProfileRef
  profiles : List Profile
  remote : Remote
deriving DecidableEq

/-- Read a profile object's current field values through the heap. -/
def derefProfile (heap : List (List String)) (p : ProfileRef) : Profile :=
  { id := p.id, name := p.name,
    firstplacechampions := heap.getD p.championsRef [],
    created_at := p.created_at, updated_at := p.updated_at }

/-- `handleUpdateProfile` (profile-manager.tsx lines 132-155): persist the
profile; when the persist returns `null` no state setter runs; on success
the collection is refetched and installed, and the row matching the
updated id becomes the selected profile (a fresh object, hence a fresh
heap cell). -/
def handleUpdateProfileS (s : Session) (profile : Profile) : Session :=
  let (updated, r1) := Db.updateProfile s.remote profile
  match updated with
  | none => { s with remote := r1 }
  | some _ =>
    let (updatedProfiles, r2) := Db.getProfiles r1
    match updatedProfiles.find? (fun p => p.id = profile.id) with
    | some sel =>
      { heap := s.heap ++ [sel.firstplacechampions],
        selectedProfile :=
          { id := sel.id, name := sel.name, championsRef := s.heap.length,
            created_at := sel.created_at, updated_at := sel.updated_at },
        profiles := updatedProfiles,
        remote := r2 }
    | none => { s with profiles := updatedProfiles, remote := r2 }

/-- `toggleChampionWin` (profile-manager.tsx lines 184-201):
`const updatedProfile = { ...selectedProfile }` copies the array reference,
so the `splice`/`push` on `updatedProfile.firstplacechampions` mutates the
very cell the selected profile references; the updated object is then
handed to `handleUpdateProfile`. -/
def toggleChampionWin (s : Session) (champion : String) : Session :=
  let updatedProfile := s.selectedProfile
  let arr := s.heap.getD updatedProfile.championsRef []
  let arr2 := toggleList arr champion
  let s1 := { s with heap := s.heap.set updatedProfile.championsRef arr2 }
  handleUpdateProfileS s1 (derefProfile s1.heap updatedProfile)

/-- A session whose selected profile has completed {Ahri} and whose remote
store is failing. -/
def c4Session : Session :=
  { heap := [["Ahri"]],
    selectedProfile :=
      { id := "p1", name := "Me", championsRef := 0, created_at := 0,
        updated_at := 0 },
    profiles :=
      [{ id := "p1", name := "Me", firstplacechampions := ["Ahri"],
         created_at := 0, updated_at := 0 }],
    remote :=
      { table :=
          [{ id := "p1", name := "Me", firstplacechampions := ["Ahri"],
             created_at := 0, updated_at := 0 }],
        failed := true, nextId := 2, now := 1, log := [] } }

/-- C4 is contradicted by the code at this input: with the selected
profile's completed-set ["Ahri"] and a remote store that fails the persist,
`toggleChampionWin "Ahri"` gets a `null` persist result and runs no state
setter (the collection is untouched), yet the selected profile's in-memory
completed-set has become [] — the shallow `{ ...selectedProfile }` copy
shares the `firstplacechampions` array, which `splice` mutates in place
before the persist is attempted. -/
theorem C4_failed_persist_mutates_state :
    (derefProfile c4Session.heap
        c4Session.selectedProfile).firstplacechampions = ["Ahri"]
    ∧ c4Session.remote.failed = true
    ∧ (Db.updateProfile c4Session.remote
        (derefProfile (c4Session.heap.set 0 (toggleList ["Ahri"] "Ahri"))
          c4Session.selectedProfile)).1 = none
    ∧ (toggleChampionWin c4Session "Ahri").profiles = c4Session.profiles
    ∧ (toggleChampionWin c4Session "Ahri").remote.table
        = c4Session.remote.table
    ∧ (derefProfile (toggleChampionWin c4Session "Ahri").heap
        (toggleChampionWin c4Session "Ahri").selectedProfile).firstplacechampions
      = [] := by
  decide

/-- The mutable state of one `subscribeToProfiles` subscription
(database.ts lines 160-222): whether the channel is still subscribed,
the `isProcessing` closure flag, how many `getProfiles` fetches started by
`processUpdate` are awaiting their response, and how often the registered
callback has been invoked. -/
structure SubState where
  subscribed : Bool
  isProcessing : Bool
  inFlightFetches : Nat
  callbackCount : Nat
deriving DecidableEq

/-- The events the single-threaded event loop can deliver to the
subscription: a postgres change notification, the resolution of the oldest
in-flight fetch, and `unsubscribe()`. -/
inductive SubEvent
  | notify
  | complete
  | unsub
deriving DecidableEq

/-- One event-loop step of the subscription (database.ts lines 163-222).
A notification on a live channel runs `processUpdate`, which returns at
once when `isProcessing` is set and otherwise sets it and starts a fetch.
When a fetch resolves, `callback(profiles)` is invoked and the `finally`
block clears `isProcessing`; nothing on that path consults the channel
state, so it runs the same way after `unsubscribe()`.  `unsubscribe()`
only removes the channel listeners. -/
def subStep (s : SubState) (e : SubEvent) : SubState :=
  match e with
  | .notify =>
    if s.subscribed then
      if s.isProcessing then s
      else { s with isProcessing := true,
                    inFlightFetches := s.inFlightFetches + 1 }
    else s
  | .complete =>
    if s.inFlightFetches > 0 then
      { s with inFlightFetches := s.inFlightFetches - 1,
               callbackCount := s.callbackCount + 1,
               isProcessing := false }
    else s
  | .unsub => { s with subscribed := false }

/-- Run a sequence of event-loop steps. -/
def subRun (s : SubState) (es : List SubEvent) : SubState :=
  es.foldl subStep s

/-- The state right after `subscribeToProfiles` returns. -/
def subInit : SubState :=
  { subscribed := true, isProcessing := false, inFlightFetches := 0,
    callbackCount := 0 }

/-- C5 is false on the code: a notification starts a fetch, `unsubscribe()`
is called while it is in flight (no callback has fired yet), and when the
fetch then resolves, `processUpdate` still invokes the callback — the
in-flight response is not dropped, because the resumed closure never checks
whether the channel was unsubscribed. -/
theorem C5_counterexample :
    (subRun subInit [SubEvent.notify, SubEvent.unsub]).subscribed = false
    ∧ (subRun subInit [SubEvent.notify, SubEvent.unsub]).callbackCount = 0
    ∧ (subRun subInit
        [SubEvent.notify, SubEvent.unsub, SubEvent.complete]).callbackCount
      = 1 := by
  decide

theorem subStep_unsub_step (s : SubState) (e : SubEvent)
    (h : s.subscribed = false) :
    (subStep s e).subscribed = false
    ∧ (subStep s e).callbackCount + (subStep s e).inFlightFetches
        ≤ s.callbackCount + s.inFlightFetches := by
  cases e with
  | notify => simp [subStep, h]
  | complete =>
    simp only [subStep]
    split_ifs with hf
    · exact ⟨h, by dsimp only; omega⟩
    · exact ⟨h, Nat.le_refl _⟩
  | unsub => exact ⟨rfl, Nat.le_refl _⟩

theorem subStep_frozen (s : SubState) (e : SubEvent)
    (h : s.subscribed = false) (h0 : s.inFlightFetches = 0) :
    subStep s e = s := by
  cases e with
  | notify => simp [subStep, h]
  | complete => simp [subStep, h0]
  | unsub => simp [subStep]; cases s; simp_all

/-- C5 amended: after `unsubscribe()` no new fetch ever starts and the
callback can only fire for fetches already in flight at unsubscription
time: the total of callbacks-so-far plus in-flight fetches never grows,
and when no fetch was in flight at unsubscription the callback never fires
again.  (From reachable states at most one fetch is in flight, so at most
one late callback can occur.) -/
theorem C5_amended (s : SubState) (es : List SubEvent)
    (h : s.subscribed = false) :
    (subRun s es).subscribed = false
    ∧ (subRun s es).callbackCount + (subRun s es).inFlightFetches
        ≤ s.callbackCount + s.inFlightFetches
    ∧ (s.inFlightFetches = 0 → subRun s es = s) := by
  induction es generalizing s with
  | nil => exact ⟨h, Nat.le_refl _, fun _ => rfl⟩
  | cons e rest ih =>
    have hstep := subStep_unsub_step s e h
    have hrec := ih (subStep s e) hstep.1
    refine ⟨hrec.1, Nat.le_trans hrec.2.1 hstep.2, ?_⟩
    intro h0
    have hfr : subStep s e = s := subStep_frozen s e h h0
    show subRun (subStep s e) rest = s
    rw [hfr]
    exact (ih s h).2.2 h0

/-- C5 witness: `C5_amended` on the state reached in the counterexample
trace, where one fetch was in flight at unsubscription: at most that one
late callback can ever be delivered. -/
theorem C5_amended_witness :
    (subRun (subRun subInit [SubEvent.notify, SubEvent.unsub])
        [SubEvent.complete, SubEvent.notify]).callbackCount
      + (subRun (subRun subInit [SubEvent.notify, SubEvent.unsub])
          [SubEvent.complete, SubEvent.notify]).inFlightFetches
      ≤ (subRun subInit [SubEvent.notify, SubEvent.unsub]).callbackCount
        + (subRun subInit [SubEvent.notify, SubEvent.unsub]).inFlightFetches :=
  (C5_amended (subRun subInit [SubEvent.notify, SubEvent.unsub])
    [SubEvent.complete, SubEvent.notify] (by decide)).2.1

/-- The coupling invariant of `processUpdate`: a fetch is in flight exactly
while `isProcessing` is set. -/
def SubInv (s : SubState) : Prop :=
  s.inFlightFetches = if s.isProcessing then 1 else 0

theorem subStep_inv (s : SubState) (e : SubEvent) (h : SubInv s) :
    SubInv (subStep s e) := by
  unfold SubInv at h ⊢
  cases e with
  | notify =>
    simp only [subStep]
    split_ifs at h ⊢ <;> simp_all
  | complete =>
    simp only [subStep]
    split_ifs at h ⊢ <;> simp_all
  | unsub =>
    simpa [subStep] using h

theorem subRun_inv (s : SubState) (es : List SubEvent) (h : SubInv s) :
    SubInv (subRun s es) := by
  induction es generalizing s with
  | nil => exact h
  | cons e rest ih => exact ih (subStep s e) (subStep_inv s e h)

/-- C6: overlapping notifications are coalesced.  From the initial
subscription state at most one refresh fetch is ever in flight; and a
notification arriving while `isProcessing` is set leaves the state exactly
unchanged — it starts no fetch, is not queued, and the remaining run
proceeds as if the notification had never arrived, so it causes no later
callback invocation of its own. -/
theorem C6_coalescing (es : List SubEvent) (s : SubState)
    (rest : List SubEvent) (h : s.isProcessing = true) :
    (subRun subInit es).inFlightFetches ≤ 1
    ∧ subStep s .notify = s
    ∧ subRun s (SubEvent.notify :: rest) = subRun s rest := by
  have hdrop : subStep s .notify = s := by
    cases hs : s.subscribed <;> simp [subStep, h, hs]
  refine ⟨?_, hdrop, ?_⟩
  · have hinv : SubInv (subRun subInit es) :=
      subRun_inv subInit es (by unfold SubInv subInit; simp)
    unfold SubInv at hinv
    rw [hinv]
    split_ifs <;> omega
  · show subRun (subStep s .notify) rest = subRun s rest
    rw [hdrop]

/-- C6 witness: a second notification arriving while the first refresh is
in flight is dropped without effect. -/
theorem C6_coalescing_witness :
    (subRun subInit [SubEvent.notify, SubEvent.notify]).inFlightFetches ≤ 1
    ∧ subStep (subRun subInit [SubEvent.notify]) .notify
        = subRun subInit [SubEvent.notify]
    ∧ subRun (subRun subInit [SubEvent.notify]) [SubEvent.notify, SubEvent.complete]
        = subRun (subRun subInit [SubEvent.notify]) [SubEvent.complete] :=
  C6_coalescing [SubEvent.notify, SubEvent.notify]
    (subRun subInit [SubEvent.notify]) [SubEvent.complete] (by decide)

/-- `handleDeleteProfile` (profile-manager.tsx lines 157-182): refuse (and
issue no remote call) when at most one profile remains; otherwise delete
remotely and, on success, refetch and install the collection and — when the
deleted profile was the selected one — select the first remaining profile
(or none). -/
def handleDeleteProfile (s : ManagerState) (id : String) : ManagerState :=
  if s.profiles.length ≤ 1 then s
  else
    let (success, r1) := Db.deleteProfile s.remote id
    if success then
      let (updatedProfiles, r2) := Db.getProfiles r1
      let s2 := { s with profiles := updatedProfiles, remote := r2 }
      if s.selectedProfile.any (fun p => p.id = id) then
        { s2 with selectedProfile := updatedProfiles.head? }
      else s2
    else { s with remote := r1 }

/-- States from which delete sequences are considered: the manager's
collection mirrors what `getProfiles` returns for its remote store, it is
non-empty, and — as the database's primary-key constraint guarantees — the
table's ids are distinct. -/
def SyncedNonempty (s : ManagerState) : Prop :=
  s.profiles = (Db.getProfiles s.remote).1
  ∧ s.profiles ≠ []
  ∧ (s.remote.table.map Profile.id).Nodup

theorem countP_id_le_one (l : List Profile) (i : String)
    (h : (l.map Profile.id).Nodup) :
    l.countP (fun p => p.id = i) ≤ 1 := by
  induction l with
  | nil => simp
  | cons q rest ih =>
    rw [List.map_cons, List.nodup_cons] at h
    rw [List.countP_cons]
    by_cases hq : q.id = i
    · have hzero : rest.countP (fun p => p.id = i) = 0 := by
        rw [List.countP_eq_zero]
        intro p hp
        simp only [decide_eq_true_eq]
        intro hpi
        exact h.1 (by
          rw [hq, ← hpi]
          exact List.mem_map_of_mem Profile.id hp)
      simp [hq, hzero]
    · have : (decide (q.id = i)) = false := by simp [hq]
      rw [this]
      simpa using ih h.2

theorem filter_ne_id_nonempty (tbl : List Profile) (i : String)
    (hn : (tbl.map Profile.id).Nodup) (hlen : 2 ≤ tbl.length) :
    tbl.filter (fun p => p.id ≠ i) ≠ [] := by
  intro hempty
  have hall : ∀ p ∈ tbl, p.id = i := by
    intro p hp
    have h2 := List.filter_eq_nil_iff.1 hempty p hp
    simpa using h2
  have hfull : tbl.countP (fun p => p.id = i) = tbl.length :=
    List.countP_eq_length.2 (by
      intro a ha
      simpa using hall a ha)
  have hone := countP_id_le_one tbl i hn
  omega

theorem handleDeleteProfile_noop (s : ManagerState) (i : String)
    (h : s.profiles.length ≤ 1) : handleDeleteProfile s i = s := by
  unfold handleDeleteProfile
  rw [if_pos h]

theorem handleDeleteProfile_not_failed (s : ManagerState)
    (hsync : s.profiles = (Db.getProfiles s.remote).1)
    (hne : s.profiles ≠ []) : s.remote.failed = false := by
  by_contra hf
  rw [Bool.not_eq_false] at hf
  apply hne
  rw [hsync]
  simp [Db.getProfiles, hf]

theorem handleDeleteProfile_profiles (s : ManagerState) (i : String)
    (hlen : ¬ s.profiles.length ≤ 1) (hfail : s.remote.failed = false) :
    (handleDeleteProfile s i).profiles =
      List.insertionSort (fun p q : Profile => p.created_at ≤ q.created_at)
        (s.remote.table.filter (fun p => p.id ≠ i))
    ∧ (handleDeleteProfile s i).remote.table
        = s.remote.table.filter (fun p => p.id ≠ i)
    ∧ (handleDeleteProfile s i).remote.failed = false := by
  unfold handleDeleteProfile
  rw [if_neg hlen]
  simp [Db.deleteProfile, Db.getProfiles, hfail, apply_ite ManagerState.profiles,
    apply_ite ManagerState.remote]

theorem handleDeleteProfile_preserves (s : ManagerState) (i : String)
    (h : SyncedNonempty s) : SyncedNonempty (handleDeleteProfile s i) := by
  rcases h with ⟨hsync, hne, hnodup⟩
  by_cases hlen : s.profiles.length ≤ 1
  · rw [handleDeleteProfile_noop s i hlen]
    exact ⟨hsync, hne, hnodup⟩
  · have hfail : s.remote.failed = false :=
      handleDeleteProfile_not_failed s hsync hne
    obtain ⟨hp, ht, hf⟩ := handleDeleteProfile_profiles s i hlen hfail
    have hlen2 : 2 ≤ s.remote.table.length := by
      have : s.profiles.length =
          (List.insertionSort
            (fun p q : Profile => p.created_at ≤ q.created_at)
            s.remote.table).length := by
        rw [hsync]
        simp [Db.getProfiles, hfail]
      rw [(List.perm_insertionSort _ _).length_eq] at this
      omega
    refine ⟨?_, ?_, ?_⟩
    · rw [hp]
      simp [Db.getProfiles, hf, ht]
    · rw [hp]
      intro hnil
      have hperm := List.perm_insertionSort
        (fun p q : Profile => p.created_at ≤ q.created_at)
        (s.remote.table.filter (fun p => p.id ≠ i))
      rw [hnil] at hperm
      exact filter_ne_id_nonempty s.remote.table i hnodup hlen2
        hperm.symm.eq_nil
    · rw [ht]
      exact List.Nodup.sublist
        ((List.filter_sublist s.remote.table).map Profile.id) hnodup

theorem handleDeleteProfile_selected (s : ManagerState) (i : String)
    (hlen : ¬ s.profiles.length ≤ 1) (hfail : s.remote.failed = false)
    (hsel : s.selectedProfile.any (fun p => p.id = i) = true) :
    (handleDeleteProfile s i).selectedProfile
      = (handleDeleteProfile s i).profiles.head? := by
  unfold handleDeleteProfile
  rw [if_neg hlen]
  simp [Db.deleteProfile, Db.getProfiles, hfail, hsel]

/-- The first profile of Scenario E. -/
def scenEP0 : Profile :=
  { id := "p0", name := "Me", firstplacechampions := [],
    created_at := 0, updated_at := 0 }

/-- The second profile of Scenario E. -/
def scenEP1 : Profile :=
  { id := "p1", name := "My Friend", firstplacechampions := [],
    created_at := 1, updated_at := 1 }

/-- Scenario E: two profiles exist and the first one is selected. -/
def scenEState : ManagerState :=
  { profiles := [scenEP0, scenEP1], selectedProfile := some scenEP0,
    loading := false, connectionStatus := "Connected",
    remote :=
      { table := [scenEP0, scenEP1], failed := false, nextId := 2,
        now := 2, log := [] } }

/-- A healthy state whose collection has exactly one profile. -/
def oneProfileState : ManagerState :=
  { profiles := [scenEP0], selectedProfile := some scenEP0,
    loading := false, connectionStatus := "Connected",
    remote :=
      { table := [scenEP0], failed := false, nextId := 1, now := 1,
        log := [] } }

/-- C7: deleting from a collection of exactly one profile is a no-op — the
post-state equals the pre-state, including the remote request log, so no
remote call is issued; every sequence of deletes from a synced non-empty
state leaves the collection non-empty; a delete from a synced state with
at least two profiles removes every profile carrying the deleted id; for
every synced state with at least two profiles, when the deleted profile
was the selected one the selection moves to the first remaining profile
(`updatedProfiles[0] || null`, which the non-emptiness invariant makes an
actual profile); and in Scenario E, deleting the selected first profile
moves the selection to the second. -/
theorem C7_delete_invariant (s : ManagerState) (i : String)
    (ids : List String) :
    (s.profiles.length = 1 → handleDeleteProfile s i = s)
    ∧ (SyncedNonempty s →
        (ids.foldl handleDeleteProfile s).profiles ≠ [])
    ∧ (SyncedNonempty s → 2 ≤ s.profiles.length →
        ∀ p ∈ (handleDeleteProfile s i).profiles, p.id ≠ i)
    ∧ (SyncedNonempty s → 2 ≤ s.profiles.length →
        s.selectedProfile.any (fun p => p.id = i) = true →
        (handleDeleteProfile s i).selectedProfile
          = (handleDeleteProfile s i).profiles.head?
        ∧ (handleDeleteProfile s i).profiles ≠ [])
    ∧ (handleDeleteProfile scenEState "p0").selectedProfile = some scenEP1 := by
  refine ⟨?_, ?_, ?_, ?_, by decide⟩
  · intro h1
    exact handleDeleteProfile_noop s i (by omega)
  · intro h
    have hinv : SyncedNonempty (ids.foldl handleDeleteProfile s) := by
      induction ids generalizing s with
      | nil => exact h
      | cons j rest ih =>
        exact ih (handleDeleteProfile s j)
          (handleDeleteProfile_preserves s j h)
    exact hinv.2.1
  · rintro ⟨hsync, hne, hnodup⟩ hlen2 p hp
    have hfail : s.remote.failed = false :=
      handleDeleteProfile_not_failed s hsync hne
    obtain ⟨hprof, _, _⟩ :=
      handleDeleteProfile_profiles s i (by omega) hfail
    rw [hprof] at hp
    have hp2 : p ∈ s.remote.table.filter (fun p => p.id ≠ i) :=
      (List.perm_insertionSort _ _).subset hp
    have := (List.mem_filter.1 hp2).2
    simpa using this
  · intro h hlen2 hsel
    have hfail : s.remote.failed = false :=
      handleDeleteProfile_not_failed s h.1 h.2.1
    exact ⟨handleDeleteProfile_selected s i (by omega) hfail hsel,
      (handleDeleteProfile_preserves s i h).2.1⟩

/-- C7 witness: the size-one no-op, a concrete delete sequence on Scenario
E's synced two-profile state, and the deletion of the selected profile
there moving the selection to the head of the remaining collection. -/
theorem C7_delete_invariant_witness :
    handleDeleteProfile oneProfileState "p0" = oneProfileState
    ∧ ((["p0", "p1"] : List String).foldl
        handleDeleteProfile scenEState).profiles ≠ []
    ∧ (∀ p ∈ (handleDeleteProfile scenEState "p0").profiles, p.id ≠ "p0")
    ∧ (handleDeleteProfile scenEState "p0").selectedProfile
        = (handleDeleteProfile scenEState "p0").profiles.head? :=
  ⟨(C7_delete_invariant oneProfileState "p0" []).1 rfl,
   (C7_delete_invariant scenEState "p0" ["p0", "p1"]).2.1
     ⟨by decide, by decide, by decide⟩,
   (C7_delete_invariant scenEState "p0" []).2.2.1
     ⟨by decide, by decide, by decide⟩ (by decide),
   ((C7_delete_invariant scenEState "p0" []).2.2.2.1
     ⟨by decide, by decide, by decide⟩ (by decide) (by decide)).1⟩
